import Mathlib

/-!
Verification of the Galaxy SIA server (ZebMcKayhan/SIA-Server) against its
natural-language specification.  The Python source is shallowly embedded:
byte strings become `List Nat` (each byte `< 256`), fallible operations
return `Option`, and the per-connection loop body becomes a pure step
function on the received data.
-/

namespace SIA

/-- Running XOR over a byte list starting from `0xFF`, as computed by the
`checksum = 0xFF; for byte in ...: checksum ^= byte` loops in
`validate_and_strip` and `build_and_send` (`sia-server.py`). -/
def xorChecksum (bytes : List Nat) : Nat :=
  bytes.foldl (fun a b => a ^^^ b) 0xFF

/-- Embedding of `validate_and_strip` (`sia-server.py` lines 56-90).
`data[0] - 0x40` is computed in `Int` because Python subtraction of small
ints does not truncate; `data.getD 1 0` is `data[1]` (in range once the
length check passed) and `(data.drop 2).dropLast` is the slice `data[2:-1]`. -/
def validate_and_strip (data : List Nat) : Option (Nat × List Nat) :=
  if data.length < 3 then none
  else if ((data.headI : Int) - 0x40) ≠ ((data.length : Int) - 3) then none
  else if xorChecksum data.dropLast ≠ data.getLastD 0 then none
  else some (data.getD 1 0, (data.drop 2).dropLast)

/-- Helper: the three sequential early-return checks of `validate_and_strip`
collapse to a single positive acceptance condition. -/
lemma validate_and_strip_eq_if (data : List Nat) :
    validate_and_strip data =
      if 3 ≤ data.length ∧ ((data.headI : Int) - 0x40 = (data.length : Int) - 3)
          ∧ xorChecksum data.dropLast = data.getLastD 0
      then some (data.getD 1 0, (data.drop 2).dropLast)
      else none := by
  unfold validate_and_strip
  split_ifs with h1 h2 h3 h4 <;> first
  | rfl
  | (exfalso; omega)
  | (exfalso; exact h2 h4.2.1)
  | (exfalso; exact h3 h4.2.2)
  | (exfalso; exact h4 ⟨by omega, by tauto, by tauto⟩)

/-- The command-byte table `COMMANDS` from `galaxy/constants.py`. -/
def COMMANDS : List (Nat × String) :=
  [ (0x23, "ACCOUNT_ID"),
    (0x4E, "NEW_EVENT"),
    (0x41, "ASCII"),
    (0x30, "END_OF_DATA"),
    (0x38, "ACKNOWLEDGE"),
    (0x39, "REJECT"),
    (0x31, "WAIT"),
    (0x32, "ABORT"),
    (0x36, "ACK_AND_STANDBY"),
    (0x37, "ACK_AND_DISCONNECT"),
    (0x08, "ALT_ACKNOWLEDGE"),
    (0x09, "ALT_REJECT"),
    (0x43, "CONTROL"),
    (0x45, "ENVIRONMENTAL"),
    (0x4F, "OLD_EVENT"),
    (0x50, "PROGRAM"),
    (0x40, "CONFIGURATION"),
    (0x3F, "REMOTE_LOGIN"),
    (0x26, "ORIGIN_ID"),
    (0x58, "EXTENDED"),
    (0x4C, "LISTEN_IN"),
    (0x56, "VCHN_REQUEST"),
    (0x76, "VCHN_FRAME"),
    (0x49, "VIDEO") ]

/-- The reverse mapping `COMMAND_BYTES = {name: byte for byte, name in
COMMANDS.items()}` from `galaxy/constants.py` (all names are distinct, so
the dict comprehension is a plain reversal). -/
def COMMAND_BYTES : List (String × Nat) :=
  COMMANDS.map (fun p => (p.2, p.1))

/-- Message construction done by `build_and_send` (`sia-server.py` lines
93-113), separated from the name-to-byte lookup: length byte is
`len(payload) + 0x40`, then the checksum of the length/command/payload
part is appended. -/
def build_message (command_byte : Nat) (payload : List Nat) : List Nat :=
  let length_byte := payload.length + 0x40
  let message_part := length_byte :: command_byte :: payload
  message_part ++ [xorChecksum message_part]

/-- The lookup `COMMAND_BYTES[command]` in `build_and_send`.  The server
only uses the names 'ACKNOWLEDGE' and 'REJECT', which are present, so the
`getD` default is never taken (Python would raise `KeyError`). -/
def command_byte_of (name : String) : Nat :=
  (COMMAND_BYTES.lookup name).getD 0

/-- Embedding of `build_and_send` (`sia-server.py` lines 93-113) as the
byte string written to the socket. -/
def build_and_send (name : String) (payload : List Nat) : List Nat :=
  build_message (command_byte_of name) payload

/-- Helper: decoding a built message recovers the command byte and payload. -/
lemma validate_build_message (cb : Nat) (P : List Nat) :
    validate_and_strip (build_message cb P) = some (cb, P) := by
  have hform : build_message cb P
      = ((P.length + 0x40) :: cb :: P) ++ [xorChecksum ((P.length + 0x40) :: cb :: P)] := rfl
  rw [validate_and_strip_eq_if, hform]
  rw [if_pos]
  · simp only [List.cons_append, List.getD_cons_succ, List.getD_cons_zero,
      List.drop_succ_cons, List.drop_zero]
    rw [List.dropLast_concat]
  · refine ⟨by simp, ?_, ?_⟩
    · simp [List.headI]
      omega
    · rw [List.dropLast_concat, List.getLastD_concat]

/-- C1.  `validate_and_strip` accepts exactly the byte strings of length at
least 3 whose first byte minus `0x40` equals the actual payload length
(total length minus 3) and whose running XOR from `0xFF` over all bytes but
the last equals the last byte; on acceptance it returns the second byte
(the command) and the bytes strictly between it and the final checksum
byte.  The definition performs the length checks before the checksum
check, as the spec requires. -/
theorem validate_and_strip_characterization (data : List Nat) :
    validate_and_strip data =
      if 3 ≤ data.length ∧ ((data.headI : Int) - 0x40 = (data.length : Int) - 3)
          ∧ xorChecksum data.dropLast = data.getLastD 0
      then some (data.getD 1 0, (data.drop 2).dropLast)
      else none :=
  validate_and_strip_eq_if data

/-- C2.  Round trip: for every command name in the command table and every
payload of at most 191 bytes, decoding the block built by the encoder
returns exactly that command byte and payload. -/
theorem decode_encode_roundtrip (name : String) (cb : Nat) (P : List Nat)
    (hname : COMMAND_BYTES.lookup name = some cb)
    (hlen : P.length ≤ 191)
    (hbytes : ∀ b ∈ P, b < 256) :
    validate_and_strip (build_and_send name P) = some (cb, P) := by
  have hb : build_and_send name P = build_message cb P := by
    unfold build_and_send command_byte_of
    rw [hname]
    rfl
  rw [hb, validate_build_message]

/-- C2 witness: the round trip at the concrete command 'NEW_EVENT' and a
concrete three-byte payload. -/
theorem decode_encode_roundtrip_witness :
    validate_and_strip (build_and_send "NEW_EVENT" [78, 116, 105]) = some (0x4E, [78, 116, 105]) :=
  decode_encode_roundtrip "NEW_EVENT" 0x4E [78, 116, 105] (by decide) (by decide)
    (by decide)

/-- Lowercase hex digit, as produced by Python `%x` formatting. -/
def hexDigit (n : Nat) : Char :=
  if n < 10 then Char.ofNat (48 + n) else Char.ofNat (87 + n)

/-- Two-digit lowercase hex rendering of a byte, Python `f'with 02x'`. -/
def hexByte (n : Nat) : String :=
  String.mk [hexDigit (n / 16 % 16), hexDigit (n % 16)]

/-- The name lookup `COMMANDS.get(command_byte, f'UNKNOWN(0x..)')` in
`handle_connection` (`sia-server.py` line 165). -/
def commandName (cb : Nat) : String :=
  (COMMANDS.lookup cb).getD ("UNKNOWN(0x" ++ hexByte cb ++ ")")

/-- Observable outcome of one iteration of the `handle_connection` read
loop on a received byte string: the frames written back to the socket, in
order; whether the loop keeps reading on the same connection (`false`
means it breaks out, after which the `finally` block closes the socket);
and the block record appended to `valid_blocks`, if any. -/
structure StepResult where
  sent : List (List Nat)
  continues : Bool
  recorded : Option (String × List Nat)
deriving DecidableEq

/-- Embedding of the body of the `while True` read loop of
`handle_connection` (`sia-server.py` lines 126-175) for a single received
byte string `data`: empty read means the peer closed (break); an invalid
block starting `0x05 0x01` is the encrypted handshake (no reply, break);
any other invalid block draws a REJECT and the loop continues; a valid
block draws an ACKNOWLEDGE, is recorded unless it is END_OF_DATA, and
END_OF_DATA breaks the loop. -/
def handle_block (data : List Nat) : StepResult :=
  if data = [] then ⟨[], false, none⟩
  else
    match validate_and_strip data with
    | none =>
        if 2 ≤ data.length ∧ data.take 2 = [0x05, 0x01] then ⟨[], false, none⟩
        else ⟨[build_and_send "REJECT" []], true, none⟩
    | some (cb, payload) =>
        let name := commandName cb
        if name = "END_OF_DATA" then ⟨[build_and_send "ACKNOWLEDGE" []], false, none⟩
        else ⟨[build_and_send "ACKNOWLEDGE" []], true, some (name, payload)⟩

/-- C3.  On any received byte string that fails block validation: if its
first two bytes are `0x05 0x01` the server writes nothing back and closes
the connection (the loop breaks, nothing recorded); otherwise it sends
exactly one REJECT block and keeps reading on the same connection. -/
theorem invalid_block_handling (data : List Nat)
    (hne : data ≠ [])
    (hinv : validate_and_strip data = none) :
    (data.take 2 = [0x05, 0x01] → handle_block data = ⟨[], false, none⟩) ∧
    (data.take 2 ≠ [0x05, 0x01] →
      handle_block data = ⟨[build_and_send "REJECT" []], true, none⟩) := by
  constructor
  · intro hh
    have hlen : 2 ≤ data.length := by
      have := congrArg List.length hh
      simp at this
      omega
    unfold handle_block
    rw [if_neg hne, hinv]
    simp only []
    rw [if_pos ⟨hlen, hh⟩]
  · intro hh
    unfold handle_block
    rw [if_neg hne, hinv]
    simp only []
    rw [if_neg]
    intro hc
    exact hh hc.2

/-- C3 witness: the two-byte handshake marker alone is silently dropped
with the connection closing, while a short corrupt frame draws a REJECT
and the connection stays open. -/
theorem invalid_block_handling_witness :
    handle_block [0x05, 0x01] = ⟨[], false, none⟩ ∧
    handle_block [1, 2, 3] = ⟨[build_and_send "REJECT" []], true, none⟩ :=
  ⟨(invalid_block_handling [0x05, 0x01] (by decide) (by decide)).1 (by decide),
   (invalid_block_handling [1, 2, 3] (by decide) (by decide)).2 (by decide)⟩

/-- C9 counterexample: on a block that fails only the checksum test, the
REJECT frame actually sent is `0x40 0x39 0x86` — its checksum byte is
`0xFF XOR 0x40 XOR 0x39 = 0x86`, not the `0xC6` the claim states. -/
theorem reject_frame_checksum_counterexample :
    (handle_block [0x40, 0x39, 0x00]).sent = [[0x40, 0x39, 0x86]] ∧
    ([0x40, 0x39, 0x86] : List Nat) ≠ [0x40, 0x39, 0xC6] := by
  decide

/-- C9 (amended).  In reply to any block that passes the length checks but
fails the checksum test, the server sends exactly the three-byte REJECT
block `0x40 0x39 0x86` (length byte for an empty payload, command `0x39`,
checksum `0x86`) and the connection remains open (the read loop
continues); nothing is recorded. -/
theorem reject_reply_on_bad_checksum (data : List Nat)
    (h3 : 3 ≤ data.length)
    (hlen : (data.headI : Int) - 0x40 = (data.length : Int) - 3)
    (hchk : xorChecksum data.dropLast ≠ data.getLastD 0) :
    handle_block data = ⟨[[0x40, 0x39, 0x86]], true, none⟩ := by
  have hne : data ≠ [] := by
    intro h
    rw [h] at h3
    simp at h3
  have hinv : validate_and_strip data = none := by
    rw [validate_and_strip_eq_if, if_neg]
    intro hc
    exact hchk hc.2.2
  have hfirst : data.headI ≠ 0x05 := by
    intro h
    rw [h] at hlen
    omega
  have hnh : data.take 2 ≠ [0x05, 0x01] := by
    intro h
    apply hfirst
    match data, h3 with
    | a :: b :: c :: rest, _ =>
      simp [List.take] at h
      simp [List.headI, h.1]
  unfold handle_block
  rw [if_neg hne, hinv]
  simp only []
  rw [if_neg]
  · have : build_and_send "REJECT" [] = [0x40, 0x39, 0x86] := by decide
    rw [this]
  · intro hc
    exact hnh hc.2

/-- C9 witness: the amended statement at the concrete bad-checksum block
`0x40 0x39 0x00`. -/
theorem reject_reply_on_bad_checksum_witness :
    handle_block [0x40, 0x39, 0x00] = ⟨[[0x40, 0x39, 0x86]], true, none⟩ :=
  reject_reply_on_bad_checksum [0x40, 0x39, 0x00] (by decide) (by decide) (by decide)

/-- A valid block record as stored in `valid_blocks`: the dict
`{'command': command_name, 'payload': payload}` (`sia-server.py` line 169). -/
structure BlockRecord where
  command : String
  payload : List Nat
deriving DecidableEq

/-- One iteration of the chunking `for` loop of `handle_connection`
(`sia-server.py` lines 184-189), on the accumulator
`(event_chunks, current_chunk)`. -/
def chunk_step (acc : List (List BlockRecord) × List BlockRecord) (block : BlockRecord) :
    List (List BlockRecord) × List BlockRecord :=
  if block.command = "ACCOUNT_ID" ∧ acc.2 ≠ [] then (acc.1 ++ [acc.2], [block])
  else (acc.1, acc.2 ++ [block])

/-- Embedding of the chunking step of `handle_connection` (`sia-server.py`
lines 181-192): fold the loop body over the collected valid blocks starting
from empty `event_chunks` and `current_chunk`, then flush a non-empty
`current_chunk`. -/
def chunk_events (blocks : List BlockRecord) : List (List BlockRecord) :=
  let r := blocks.foldl chunk_step ([], [])
  if r.2 ≠ [] then r.1 ++ [r.2] else r.1

/-- The chunking rule exactly as the spec words it (for the refinement
claim C4): sweep left to right; an ACCOUNT_ID block starts a new chunk
unless the chunk under construction is empty (so the very first ACCOUNT_ID
opens the first chunk); every other block is appended to the current
chunk. -/
def chunkRuleAux (current : List BlockRecord) : List BlockRecord → List (List BlockRecord)
  | [] => if current = [] then [] else [current]
  | b :: rest =>
      if b.command = "ACCOUNT_ID" ∧ current ≠ [] then current :: chunkRuleAux [b] rest
      else chunkRuleAux (current ++ [b]) rest

/-- Entry point of the spec-worded chunking rule: start with an empty
current chunk. -/
def chunkRule (blocks : List BlockRecord) : List (List BlockRecord) :=
  chunkRuleAux [] blocks

/-- Helper: the fold with accumulator plus final flush computes the
spec-worded recursion, for every starting accumulator. -/
lemma foldl_chunk_step_eq (l : List BlockRecord) :
    ∀ (chunks : List (List BlockRecord)) (current : List BlockRecord),
      (let r := l.foldl chunk_step (chunks, current)
       if r.2 ≠ [] then r.1 ++ [r.2] else r.1)
      = chunks ++ chunkRuleAux current l := by
  induction l with
  | nil =>
      intro chunks current
      by_cases h : current = []
      · simp [h, chunkRuleAux]
      · simp [h, chunkRuleAux]
  | cons b rest ih =>
      intro chunks current
      by_cases h : b.command = "ACCOUNT_ID" ∧ current ≠ []
      · have hstep : chunk_step (chunks, current) b = (chunks ++ [current], [b]) := by
          unfold chunk_step
          rw [if_pos h]
        simp only [List.foldl_cons, hstep, chunkRuleAux, if_pos h, ih, List.append_assoc,
          List.singleton_append]
      · have hstep : chunk_step (chunks, current) b = (chunks, current ++ [b]) := by
          unfold chunk_step
          rw [if_neg h]
        simp only [List.foldl_cons, hstep, chunkRuleAux, if_neg h, ih]

/-- C4.  The chunking step of `handle_connection` computes exactly the
spec's left-to-right rule: a new chunk starts at each ACCOUNT_ID block
except when the chunk under construction is empty, and every other block
is appended to the current chunk. -/
theorem chunk_events_eq_rule (blocks : List BlockRecord) :
    chunk_events blocks = chunkRule blocks := by
  have h := foldl_chunk_step_eq blocks [] []
  simpa [chunk_events, chunkRule] using h

/-- Helper: every chunk the spec-worded recursion emits is non-empty. -/
lemma chunkRuleAux_ne_nil (l : List BlockRecord) :
    ∀ (current c : List BlockRecord), c ∈ chunkRuleAux current l → c ≠ [] := by
  induction l with
  | nil =>
      intro current c hc
      by_cases h : current = []
      · rw [chunkRuleAux, if_pos h] at hc
        simp at hc
      · rw [chunkRuleAux, if_neg h] at hc
        simp at hc
        rw [hc]
        exact h
  | cons b rest ih =>
      intro current c hc
      by_cases h : b.command = "ACCOUNT_ID" ∧ current ≠ []
      · rw [chunkRuleAux, if_pos h] at hc
        rcases List.mem_cons.mp hc with h1 | h1
        · rw [h1]; exact h.2
        · exact ih [b] c h1
      · rw [chunkRuleAux, if_neg h] at hc
        exact ih (current ++ [b]) c hc

/-- Helper: concatenating the emitted chunks restores the current chunk
followed by the remaining input. -/
lemma chunkRuleAux_join (l : List BlockRecord) :
    ∀ current : List BlockRecord, (chunkRuleAux current l).join = current ++ l := by
  induction l with
  | nil =>
      intro current
      by_cases h : current = []
      · simp [chunkRuleAux, h]
      · simp [chunkRuleAux, h]
  | cons b rest ih =>
      intro current
      by_cases h : b.command = "ACCOUNT_ID" ∧ current ≠ []
      · rw [chunkRuleAux, if_pos h]
        simp [ih [b]]
      · rw [chunkRuleAux, if_neg h]
        simp [ih (current ++ [b])]

/-- C10.  The chunking step is an exact partition of its input: every
produced chunk is non-empty, and concatenating the chunks in order yields
precisely the input list of block records. -/
theorem chunk_events_partition (blocks : List BlockRecord) :
    (∀ c ∈ chunk_events blocks, c ≠ []) ∧ (chunk_events blocks).join = blocks := by
  have he : chunk_events blocks = chunkRuleAux [] blocks := by
    have h := foldl_chunk_step_eq blocks [] []
    simpa [chunk_events] using h
  rw [he]
  exact ⟨fun c hc => chunkRuleAux_ne_nil blocks [] c hc,
    by simpa using chunkRuleAux_join blocks []⟩

/-- Embedding of `enqueue_notification` (`notification.py` lines 239-257)
on a queue modelled as a list (head = oldest) with Python `Queue` capacity
semantics: `full()` is `0 < maxsize <= qsize()`; a full queue first has its
oldest entry discarded (`get_nowait`, with `Empty` impossible for a
non-empty full queue and otherwise leaving the queue unchanged); then the
new job `(event, 0, 0)` — retry_count 0, next_attempt_time 0 — is appended
unless the queue is still full (`put_nowait` raising `Full`). -/
def enqueue_notification {α : Type} (maxsize : Nat) (queue : List (α × Nat × Nat))
    (event : α) : List (α × Nat × Nat) :=
  let q1 := if 0 < maxsize ∧ maxsize ≤ queue.length then queue.drop 1 else queue
  if 0 < maxsize ∧ maxsize ≤ q1.length then q1 else q1 ++ [(event, 0, 0)]

/-- C6.  Enqueueing into a queue already holding `maxsize` jobs discards
exactly the oldest job and appends the new job with `retry_count = 0` and
`next_attempt = 0`; the length stays at capacity, and enqueueing never
takes a queue within capacity above capacity. -/
theorem enqueue_notification_full {α : Type} (maxsize : Nat)
    (q : List (α × Nat × Nat)) (e : α)
    (hcap : 1 ≤ maxsize) (hfull : q.length = maxsize) :
    enqueue_notification maxsize q e = q.drop 1 ++ [(e, 0, 0)] ∧
    (enqueue_notification maxsize q e).length = maxsize ∧
    ∀ q2 : List (α × Nat × Nat), q2.length ≤ maxsize →
      (enqueue_notification maxsize q2 e).length ≤ maxsize := by
  have hq1 : enqueue_notification maxsize q e = q.drop 1 ++ [(e, 0, 0)] := by
    unfold enqueue_notification
    have hfullc : 0 < maxsize ∧ maxsize ≤ q.length := ⟨hcap, by omega⟩
    have hnot : ¬ (0 < maxsize ∧ maxsize ≤ (q.drop 1).length) := by
      simp only [List.length_drop]
      omega
    rw [if_pos hfullc, if_neg hnot]
  refine ⟨hq1, ?_, ?_⟩
  · rw [hq1]
    simp only [List.length_append, List.length_drop, List.length_cons, List.length_nil]
    omega
  · intro q2 hq2
    unfold enqueue_notification
    by_cases h : 0 < maxsize ∧ maxsize ≤ q2.length
    · rw [if_pos h]
      by_cases h2 : 0 < maxsize ∧ maxsize ≤ (q2.drop 1).length
      · rw [if_pos h2]
        simp only [List.length_drop]
        omega
      · rw [if_neg h2]
        have h2' : q2.length - 1 < maxsize := by
          by_contra hh
          exact h2 ⟨h.1, by simp only [List.length_drop]; omega⟩
        simp only [List.length_append, List.length_drop, List.length_cons, List.length_nil]
        omega
    · rw [if_neg h]
      rw [if_neg h]
      have hlt : q2.length < maxsize := by
        by_contra hh
        exact h ⟨hcap, by omega⟩
      simp only [List.length_append, List.length_cons, List.length_nil]
      omega

/-- C6 witness: scenario S7 — capacity 2, jobs 1 then 2 queued, job 3
enqueued: job 1 is discarded and the queue holds jobs 2 and 3. -/
theorem enqueue_notification_full_witness :
    enqueue_notification 2 [((1 : Nat), 0, 0), (2, 0, 0)] 3
      = [((2 : Nat), 0, 0), (3, 0, 0)] :=
  (enqueue_notification_full 2 [((1 : Nat), 0, 0), (2, 0, 0)] 3 (by decide) (by decide)).1

/-- Embedding of `NotificationDispatcher.get_retry_delay`
(`notification.py` lines 174-189): a 1-minute base delay doubled per
previous attempt, clamped to `max_retry_time_minutes`, converted to
seconds. -/
def get_retry_delay (max_retry_time_minutes : Nat) (retry_count : Nat) : Nat :=
  let base_delay := 1
  let current_delay := base_delay * 2 ^ (retry_count - 1)
  let final_delay := min current_delay max_retry_time_minutes
  final_delay * 60

/-- C7.  For every retry count `k ≥ 1` and configured maximum `m ≥ 1`
minutes, the computed retry delay equals
`min(60 * 2 ^ (k - 1), m * 60)` seconds. -/
theorem get_retry_delay_spec (k m : Nat) (hk : 1 ≤ k) (hm : 1 ≤ m) :
    get_retry_delay m k = min (60 * 2 ^ (k - 1)) (m * 60) := by
  unfold get_retry_delay
  simp only [one_mul]
  rcases le_total (2 ^ (k - 1)) m with h | h
  · rw [min_eq_left h, min_eq_left (by omega)]
    omega
  · rw [min_eq_right h, min_eq_right (by omega)]

/-- C7 witness: the third retry with a 2-minute cap waits
`min(240, 120) = 120` seconds. -/
theorem get_retry_delay_spec_witness :
    get_retry_delay 2 3 = min (60 * 2 ^ (3 - 1)) (2 * 60) :=
  get_retry_delay_spec 3 2 (by decide) (by decide)

/-- Index of the first occurrence of a byte, modelling Python
`bytes.index` with the `ValueError` case returned as `none`
(`galaxy/parser.py` lines 81-87). -/
def indexOfByte (x : Nat) : List Nat → Option Nat
  | [] => none
  | b :: rest => if b = x then some 0 else (indexOfByte x rest).map (· + 1)

/-- Model of Python `bytes.decode('utf-8', errors='ignore')` on the ASCII
range: bytes up to `0x7F` decode to themselves and other bytes are
dropped.  (CPython additionally decodes valid multi-byte UTF-8 sequences;
the account payloads at issue are ASCII digits, where the two agree.) -/
def decode_utf8_ignore (bs : List Nat) : String :=
  String.mk (bs.filterMap (fun b => if b ≤ 0x7F then some (Char.ofNat b) else none))

/-- Embedding of `parse_account_block` (`galaxy/parser.py` lines 63-99) as
the pair `(event.account_prefix, event.account)` it stores: the final byte
is dropped as a checksum, the bytes before the first `'#'` (0x23) become
the prefix (the string 'UNKNOWN' and an unset account when no `'#'` is
present), and the bytes after `'#'` become the account. -/
def parse_account_block (data : List Nat) : Option String × Option String :=
  match indexOfByte 0x23 data.dropLast with
  | none => (some "UNKNOWN", none)
  | some hash_position =>
      (some (decode_utf8_ignore (data.dropLast.take hash_position)),
       some (decode_utf8_ignore (data.dropLast.drop (hash_position + 1))))

/-- C5 counterexample: on the ACCOUNT_ID payload `023456` (ASCII digits,
exactly as scenario S1 sends it), the parser leaves the account unset
instead of returning the full payload `"023456"`: it demands a `'#'`
delimiter and discards bytes, contradicting the claim. -/
theorem parse_account_block_counterexample :
    (parse_account_block [48, 50, 51, 52, 53, 54]).2 = none ∧
    decode_utf8_ignore [48, 50, 51, 52, 53, 54] = "023456" ∧
    (none : Option String) ≠ some "023456" := by
  refine ⟨rfl, ?_, by decide⟩
  decide

/-- Helper: `indexOfByte` finds nothing in a list not containing the byte. -/
lemma indexOfByte_eq_none (x : Nat) (l : List Nat) (h : x ∉ l) :
    indexOfByte x l = none := by
  induction l with
  | nil => rfl
  | cons b rest ih =>
      unfold indexOfByte
      rw [if_neg, ih (fun hm => h (List.mem_cons_of_mem b hm))]
      · rfl
      · intro hb
        exact h (hb ▸ List.mem_cons_self b rest)

/-- Helper: `indexOfByte` on `pre ++ x :: l2` with `x ∉ pre` returns the
length of `pre`. -/
lemma indexOfByte_append (x : Nat) (pre l2 : List Nat) (h : x ∉ pre) :
    indexOfByte x (pre ++ x :: l2) = some pre.length := by
  induction pre with
  | nil => simp [indexOfByte]
  | cons b rest ih =>
      have hb : b ≠ x := by
        intro hb
        exact h (hb ▸ List.mem_cons_self b rest)
      have hrest : x ∉ rest := fun hm => h (List.mem_cons_of_mem b hm)
      show indexOfByte x (b :: (rest ++ x :: l2)) = some (rest.length + 1)
      unfold indexOfByte
      rw [if_neg hb, ih hrest]
      rfl

/-- C5 (amended).  The account parser actually implements the format
`prefix '#' account checksum`: writing the payload minus its final byte as
`pre ++ '#' :: acc` with no `'#'` in `pre`, the parsed prefix is `pre`
decoded and the parsed account is `acc` decoded (so the final payload
byte, the `'#'`, and everything before it are discarded); when the payload
minus its final byte contains no `'#'`, the prefix is the string 'UNKNOWN'
and the account stays unset. -/
theorem parse_account_block_amended :
    (∀ data pre acc : List Nat,
        data.dropLast = pre ++ 0x23 :: acc → 0x23 ∉ pre →
        parse_account_block data
          = (some (decode_utf8_ignore pre), some (decode_utf8_ignore acc))) ∧
    (∀ data : List Nat, 0x23 ∉ data.dropLast →
        parse_account_block data = (some "UNKNOWN", none)) := by
  constructor
  · intro data pre acc hsplit hpre
    have hidx : indexOfByte 0x23 data.dropLast = some pre.length := by
      rw [hsplit]
      exact indexOfByte_append 0x23 pre acc hpre
    have ht : (pre ++ 0x23 :: acc).take pre.length = pre := List.take_left ..
    have hd : (pre ++ 0x23 :: acc).drop (pre.length + 1) = acc := by
      have h1 : (pre ++ 0x23 :: acc).drop pre.length = 0x23 :: acc := List.drop_left ..
      have h2 : ((pre ++ 0x23 :: acc).drop pre.length).drop 1
          = (pre ++ 0x23 :: acc).drop (pre.length + 1) := by
        rw [List.drop_drop, Nat.add_comm]
      rw [← h2, h1]
      rfl
    unfold parse_account_block
    rw [hidx, hsplit]
    show (some (decode_utf8_ignore ((pre ++ 0x23 :: acc).take pre.length)),
        some (decode_utf8_ignore ((pre ++ 0x23 :: acc).drop (pre.length + 1))))
      = (some (decode_utf8_ignore pre), some (decode_utf8_ignore acc))
    rw [ht, hd]
  · intro data hnm
    have hidx : indexOfByte 0x23 data.dropLast = none :=
      indexOfByte_eq_none 0x23 data.dropLast hnm
    unfold parse_account_block
    rw [hidx]

/-- C5 amended witness: the payload `'A' '#' '0' '1' '2'` plus a trailing
checksum byte parses to prefix "A" and account "012", and the digits-only
payload `023456` parses to prefix 'UNKNOWN' with no account. -/
theorem parse_account_block_amended_witness :
    parse_account_block [65, 35, 48, 49, 50, 99] = (some "A", some "012") ∧
    parse_account_block [48, 50, 51, 52, 53, 54] = (some "UNKNOWN", none) := by
  constructor
  · have h := parse_account_block_amended.1 [65, 35, 48, 49, 50, 99] [65] [48, 49, 50]
      (by decide) (by decide)
    rw [h]
    have h1 : decode_utf8_ignore [65] = "A" := by decide
    have h2 : decode_utf8_ignore [48, 49, 50] = "012" := by decide
    rw [h1, h2]
  · exact parse_account_block_amended.2 [48, 50, 51, 52, 53, 54] (by decide)

/-- The static SIA event-code description table
`EVENT_CODE_DESCRIPTIONS` from `galaxy/constants.py` (lines 55-232), in
source order. -/
def EVENT_CODE_DESCRIPTIONS : List (String × String) :=
  [ ("AC", "Alarm Cause Reported"),
    ("AR", "AC Power Restored"),
    ("AT", "AC Power Trouble / Failure"),
    ("BA", "Burglary Alarm"),
    ("BC", "Burglary Cancelled"),
    ("BF", "Intruder High"),
    ("BJ", "Burglary Trouble (Resistance)"),
    ("BL", "Intruder Low"),
    ("BR", "Burglary Alarm Restored"),
    ("BT", "Burglary Trouble"),
    ("BV", "Burglary Verified"),
    ("BX", "Burglary Test"),
    ("CA", "Closing Report (Automatic)"),
    ("CE", "Closing Extend"),
    ("CG", "Area Closed"),
    ("CI", "Fail to Set"),
    ("CJ", "Late to Set"),
    ("CL", "Closing Report (User Armed)"),
    ("CP", "Auto Closing"),
    ("CR", "Recent Close"),
    ("CT", "Late to Open"),
    ("DD", "Access Denied"),
    ("DF", "Door Forced"),
    ("DG", "Access Granted"),
    ("DK", "Access Lockout"),
    ("DT", "Door Propped"),
    ("ER", "Module Removed"),
    ("ET", "RF NVM Fail"),
    ("FA", "Fire Alarm"),
    ("FB", "Fire Bypass"),
    ("FJ", "Fire Trouble (Resistance)"),
    ("FR", "Fire Alarm Restored"),
    ("FT", "Fire Trouble"),
    ("FU", "Fire Unbypass"),
    ("FX", "Fire Test"),
    ("GA", "Gas Alarm"),
    ("GB", "Gas Bypass"),
    ("GJ", "Gas Trouble Restored"),
    ("GR", "Gas Alarm Restore"),
    ("GT", "Gas Trouble"),
    ("GU", "Gas Unbypass"),
    ("HA", "Holdup / Duress Alarm"),
    ("HB", "Holdup Bypass"),
    ("HJ", "Holdup Trouble (Resistance)"),
    ("HR", "Holdup Alarm Restored"),
    ("HT", "Holdup Trouble"),
    ("HU", "Holdup Unbypass"),
    ("IA", "Equipment Failure"),
    ("IR", "Equipment Failure Restored"),
    ("JA", "Code Tamper"),
    ("JL", "Log Almost Full"),
    ("JR", "Timer Event"),
    ("JT", "Time/Date Changed"),
    ("KA", "Heat Alarm"),
    ("KB", "Heat Bypass"),
    ("KJ", "Heat Trouble (Resistance)"),
    ("KR", "Heat Alarm Restore"),
    ("KT", "Heat Trouble"),
    ("KU", "Heat Unbypass"),
    ("LB", "Program Begin"),
    ("LR", "Line Restore"),
    ("LT", "Line Trouble"),
    ("LX", "Local Program End"),
    ("MA", "Medical Alarm"),
    ("MB", "Medical Bypass"),
    ("MJ", "Medical Trouble Restored"),
    ("MR", "Medical Alarm Restore"),
    ("MT", "Medical Trouble"),
    ("MU", "Medical Unbypass"),
    ("OA", "Opening Report (Automatic)"),
    ("OG", "Area Opened"),
    ("OK", "Early Open"),
    ("OP", "Opening Report (User Disarmed)"),
    ("OR", "Disarm from Alarm"),
    ("PA", "Panic Alarm"),
    ("PB", "Panic Bypass"),
    ("PJ", "Panic Trouble (Resistance)"),
    ("PR", "Panic Alarm Restored"),
    ("PT", "Panic Trouble"),
    ("PU", "Panic Unbypass"),
    ("QA", "Assist Alarm"),
    ("QB", "Assist Bypass"),
    ("QJ", "Assist Trouble Restored"),
    ("QR", "Assist Alarm Restore"),
    ("QT", "Assist Trouble"),
    ("QU", "Assist Unbypass"),
    ("RB", "Remote Program Begin"),
    ("RC", "Relay Closed"),
    ("RD", "Program Denied"),
    ("RO", "Relay Open"),
    ("RP", "Automatic Test"),
    ("RR", "Power Up"),
    ("RS", "Program Success"),
    ("RX", "Manual Test"),
    ("SA", "Sprinkler Alarm"),
    ("SB", "Sprinkler Bypass"),
    ("SJ", "Sprinkler Trouble (Resistance)"),
    ("SR", "Sprinkler Alarm Restore"),
    ("ST", "Sprinkler Trouble"),
    ("SU", "Sprinkler Unbypass"),
    ("TA", "Tamper Alarm"),
    ("TE", "Test End"),
    ("TR", "Tamper Restore"),
    ("TS", "Test Start"),
    ("VY", "Print OC OL"),
    ("WA", "Water Alarm"),
    ("WB", "Water Bypass"),
    ("WJ", "Water Trouble (Resistance)"),
    ("WR", "Water Alarm Restore"),
    ("WT", "Water Trouble"),
    ("WU", "Water Unbypass"),
    ("XQ", "RF Jam"),
    ("XT", "RF Battery Low"),
    ("XH", "RF Jam Restore"),
    ("XR", "RF Battery Low Restore"),
    ("YC", "Comms Fail"),
    ("YF", "Panel Cold Start"),
    ("YK", "Comm Restoral"),
    ("YL", "+AC+ Battery Fail"),
    ("YP", "PSU Fail"),
    ("YR", "System Battery Restored"),
    ("YT", "System Battery Trouble"),
    ("ZA", "Freezer Alarm"),
    ("ZB", "Freezer Bypass"),
    ("ZJ", "Freezer Trouble (Resistance)"),
    ("ZR", "Freezer Alarm Restore"),
    ("ZT", "Freezer Trouble"),
    ("ZU", "Freezer Unbypass") ]

/-- Uppercase A-Z test on a character, the character class `[A-Z]` of the
event-code regular expression in `parse_data_block`. -/
def isUpperAZ (c : Char) : Bool :=
  65 ≤ c.toNat && c.toNat ≤ 90

/-- Decimal digit test on a character, the class `\\d` of the same regular
expression. -/
def isDigitChar (c : Char) : Bool :=
  48 ≤ c.toNat && c.toNat ≤ 57

/-- Embedding of the last-section match of `parse_data_block`
(`galaxy/parser.py` lines 156-168): Python
`re.match` of two-to-four uppercase letters (group 1, the event code)
followed by an optional group of three-to-four digits (group 2, the zone),
anchored at the start.  Greedy matching takes up to four leading uppercase
letters; the digit group matches only when at least three digits follow,
taking at most four; fewer than two leading letters means no match and the
event code stays unset. -/
def extract_event_code (s : List Char) : Option (String × Option String) :=
  let letters := s.takeWhile isUpperAZ
  if letters.length < 2 then none
  else
    let code := letters.take 4
    let digits := (s.drop code.length).takeWhile isDigitChar
    if 3 ≤ digits.length then some (String.mk code, some (String.mk (digits.take 4)))
    else some (String.mk code, none)

/-- Modelled from the spec: the `event_description` lookup performed by
the current generation of `parse_galaxy_event` / `parse_data_block`, which
receives `EVENT_CODE_DESCRIPTIONS` from `handle_connection`
(`sia-server.py` lines 199-204) and whose result `notification.py` reads
as `event.event_description`; that parser version is not part of the
sources here (the `galaxy/parser.py` present is an earlier generation
without the field), so per the spec the description is looked up in the
static table of SIA code meanings and unknown codes yield "Unknown". -/
def event_description_for (code : String) : String :=
  match EVENT_CODE_DESCRIPTIONS.lookup code with
  | some d => d
  | none => "Unknown"

/-- Helper: a successful association-list lookup is a member of the list. -/
lemma lookup_mem {l : List (String × String)} {k v : String}
    (h : List.lookup k l = some v) : (k, v) ∈ l := by
  induction l with
  | nil => simp [List.lookup] at h
  | cons p rest ih =>
      obtain ⟨a, b⟩ := p
      by_cases hk : k = a
      · subst hk
        simp only [List.lookup_cons, beq_self_eq_true, if_pos] at h
        rw [Option.some_inj] at h
        rw [← h]
        exact List.mem_cons_self ..
      · have hb : (k == a) = false := beq_false_of_ne hk
        simp only [List.lookup_cons, hb, Bool.false_eq_true, if_false] at h
        exact List.mem_cons_of_mem _ (ih h)

/-- Helper: a failed association-list lookup means the key appears in no
member of the list. -/
lemma lookup_none_not_mem {l : List (String × String)} {k : String}
    (h : List.lookup k l = none) : ∀ v, (k, v) ∉ l := by
  induction l with
  | nil =>
      intro v hv
      simp at hv
  | cons p rest ih =>
      obtain ⟨a, b⟩ := p
      intro v hv
      by_cases hk : k = a
      · subst hk
        simp [List.lookup_cons] at h
      · have hb : (k == a) = false := beq_false_of_ne hk
        simp only [List.lookup_cons, hb, Bool.false_eq_true, if_false] at h
        rcases List.mem_cons.mp hv with h1 | h1
        · exact hk (congrArg Prod.fst h1)
        · exact ih h v h1

/-- C8.  For every last section that yields an event code under the
`parse_data_block` match, the event description is exactly the static
table's entry for that code — the pair (code, description) is a member of
`EVENT_CODE_DESCRIPTIONS` — and is "Unknown" precisely when the code
appears nowhere in the table; in particular BA maps to "Burglary Alarm". -/
theorem event_description_agreement :
    (∀ (s : List Char) (code : String) (zone : Option String),
        extract_event_code s = some (code, zone) →
        (code, event_description_for code) ∈ EVENT_CODE_DESCRIPTIONS ∨
        (event_description_for code = "Unknown" ∧
          ∀ d : String, (code, d) ∉ EVENT_CODE_DESCRIPTIONS)) ∧
    event_description_for "BA" = "Burglary Alarm" := by
  constructor
  · intro s code zone _hx
    cases hlk : List.lookup code EVENT_CODE_DESCRIPTIONS with
    | some d =>
        left
        have he : event_description_for code = d := by
          unfold event_description_for
          rw [hlk]
        rw [he]
        exact lookup_mem hlk
    | none =>
        right
        have he : event_description_for code = "Unknown" := by
          unfold event_description_for
          rw [hlk]
        exact ⟨he, fun d => lookup_none_not_mem hlk d⟩
  · decide

/-- C8 witness: the section "BA1012" (scenario S2) yields code BA, whose
description is the table entry — membership of (BA, description) in the
table follows by applying the main theorem at this concrete section. -/
theorem event_description_agreement_witness :
    ((("BA" : String), event_description_for "BA") ∈ EVENT_CODE_DESCRIPTIONS) ∨
    (event_description_for "BA" = "Unknown" ∧
      ∀ d : String, (("BA" : String), d) ∉ EVENT_CODE_DESCRIPTIONS) :=
  event_description_agreement.1 ['B', 'A', '1', '0', '1', '2'] "BA" (some "1012")
    (by decide)

end SIA
